import Mathlib

set_option linter.unusedVariables false

/-!
Verification development for the toast-capture engine of the
device-transaction automation repository.

The definitions below shallowly embed the Python sources:
  * `capture_toast_message` embeds `src/pages/base_page.py`
    (`BasePage.capture_toast_message` plus `BasePage._check_page_alive`);
  * `capture_toast_h` embeds `src/utils/toast_handler.py`
    (`ToastHandler.capture_toast`), with the handler's
    `captured_toasts` list passed as explicit state;
  * `capture_toast_once` embeds `src/pages/tms_portal/tms_full_flow.py`
    (`capture_toast_once`), with the `last_toast_message` cache passed
    as explicit state;
  * `retry` embeds the retry decorator of `src/utils/helpers.py`.

The live browser page is modelled as a record of per-selector and
per-keyword outcomes (the environment of one call), and each embedded
function additionally returns the list of page operations it performed,
so that frame conditions (read-only behaviour) can be stated.
Wall-clock time is modelled by charging the full sub-timeout for every
element wait that fails (faithful when the element never appears) and an
environment-supplied cost for the others; the accumulated total is the
`wait_time_ms` the source computes from `time.time()`.
-/

/-! ### Python string primitives used by the sources -/

/-- Python truthiness-relevant whitespace for `str.strip()` (ASCII part). -/
def wsChar (c : Char) : Bool := c = ' ' || c = '\t' || c = '\n' || c = '\r'

/-- Model of Python `str.strip()`. -/
def pyStrip (s : String) : String :=
  ⟨((s.data.dropWhile wsChar).reverse.dropWhile wsChar).reverse⟩

/-- Model of Python `str.lower()` (ASCII letters). -/
def pyLower (s : String) : String := ⟨s.data.map Char.toLower⟩

/-- Substring containment on character lists: Python `needle in hay`. -/
def charsIncl : List Char → List Char → Bool
  | needle, [] => needle.isEmpty
  | needle, c :: rest => needle.isPrefixOf (c :: rest) || charsIncl needle rest

/-- Model of Python `needle in hay` on strings (case-sensitive). -/
def strIncl (needle hay : String) : Bool := charsIncl needle.data hay.data

/-- Case-insensitive containment: `needle.lower() in hay.lower()`. -/
def ciIncl (needle hay : String) : Bool := strIncl (pyLower needle) (pyLower hay)

/-- The `contains_expected` computation of `capture_toast_message`:
`expected_text.lower() in toast_text.lower() if expected_text else True`.
Python treats both `None` and `""` as falsy; `"" in t` is `True` anyway,
so matching on the option alone is faithful. -/
def optCI : Option String → String → Bool
  | none, _ => true
  | some e, raw => ciIncl e raw

/-- Model of Python `" | ".join(xs)` (and joins in general). -/
def joinSep (sep : String) : List String → String
  | [] => ""
  | [x] => x
  | x :: y :: rest => x ++ sep ++ joinSep sep (y :: rest)

/-! ### Page operations performed against the DOM driver -/

/-- One primitive operation the capture code performs on the page. -/
inductive PageOp where
  | waitSel (s : String)
  | readText (s : String)
  | getByText (k : String)
  | isVisibleCheck (s : String)
  | screenshot
  | dblclick (s : String)
  deriving DecidableEq

/-- Whether an operation only reads page state (screenshots are reads). -/
def readOnlyOp : PageOp → Bool
  | .dblclick _ => false
  | _ => true

/-! ### Embedding of `BasePage.capture_toast_message` -/

/-- Outcome of one selector attempt in the selector loop of
`capture_toast_message`: `wait_for_selector` times out, or the element
vanished before `text_content` returned (any exception in the body), or
`text_content` returned (Python `None` modelled as `none`). -/
inductive SelOutcome where
  | absent
  | detached
  | found (txt : Option String)
  deriving DecidableEq

/-- Outcome of a `text_content` call: it raised (element vanished), or it
returned (Python `None` modelled as `none`). -/
inductive TextRead where
  | raised
  | got (txt : Option String)
  deriving DecidableEq

/-- Outcome of one keyword attempt in the keyword fallback of
`capture_toast_message` and `capture_toast_once`: the element is not
visible; or `get_by_text`/`is_visible` raised (`raises`, which aborts the
whole keyword block because the `try` wraps the entire loop); or the
element is visible and its text was read with outcome `txt`. -/
inductive KwOutcome where
  | notVis
  | raises
  | vis (txt : TextRead)
  deriving DecidableEq

/-- Environment of one `capture_toast_message` call: whether
`_check_page_alive` passes, the outcome of each selector and keyword
probe, and the milliseconds consumed by probes that do not time out
(a probe that times out consumes its full sub-timeout). -/
structure BPage where
  alive : Bool
  sel : String → SelOutcome
  selCost : String → Nat
  kw : String → KwOutcome
  kwCost : String → Nat

/-- The ordered selector candidates of `capture_toast_message`. -/
def toast_selectors : List String :=
  [".Toastify__toast",
   ".Toastify__toast--success",
   ".Toastify__toast-container",
   "[role=\x27alert\x27]",
   "[data-testid^=\x27toast-\x27]",
   ".MuiSnackbar-root",
   ".MuiAlert-root",
   ".ant-message",
   "div[class*=\x27toast\x27]",
   "div[class*=\x27snackbar\x27]",
   "div[class*=\x27message\x27]"]

/-- The keyword list of the text fallback in `capture_toast_message`. -/
def success_texts : List String :=
  ["success", "Success", "created", "assigned", "added", "updated",
   "device", "merchant", "ipn"]

/-- The dict `capture_toast_message` returns.  Keys that are absent from
the Python dict on a given path are `none` (the failure dict carries only
`success`, `error`, `wait_time_ms` and a timestamp).  The wall-clock
timestamp string is not modelled. -/
structure ToastDetails where
  success : Bool
  text : Option String
  selector : Option String
  contains_expected : Option Bool
  expected_text : Option (Option String)
  error : Option String
  wait_time_ms : Nat
  deriving DecidableEq

/-- The selector loop of `capture_toast_message`: each candidate is
waited on with a 2000 ms slice; a timed-out wait consumes the full
slice, any other outcome consumes the environment-given cost.  On the
first `text_content` that returns, the success dict is built (with the
raw text used for `contains_expected` and its stripped form stored as
`text`) and a diagnostic screenshot is taken. -/
def selLoop (pg : BPage) (expected : Option String) :
    List String → Nat → List PageOp → Option ToastDetails × Nat × List PageOp
  | [], elapsed, ops => (none, elapsed, ops)
  | s :: rest, elapsed, ops =>
    match pg.sel s with
    | .absent => selLoop pg expected rest (elapsed + 2000) (ops ++ [.waitSel s])
    | .detached =>
        selLoop pg expected rest (elapsed + pg.selCost s)
          (ops ++ [.waitSel s, .readText s])
    | .found txt =>
        let raw := txt.getD ""
        let e2 := elapsed + pg.selCost s
        (some { success := true, text := some (pyStrip raw), selector := some s,
                contains_expected := some (optCI expected raw),
                expected_text := some expected, error := none,
                wait_time_ms := e2 },
         e2, ops ++ [.waitSel s, .readText s, .screenshot])

/-- The keyword fallback loop of `capture_toast_message`.  The whole loop
sits under a single `try`, so a raising probe aborts the remaining
keywords.  The success dict built here takes no screenshot. -/
def kwLoop (pg : BPage) (expected : Option String) :
    List String → Nat → List PageOp → Option ToastDetails × Nat × List PageOp
  | [], elapsed, ops => (none, elapsed, ops)
  | k :: rest, elapsed, ops =>
    match pg.kw k with
    | .notVis =>
        kwLoop pg expected rest (elapsed + pg.kwCost k)
          (ops ++ [.getByText k, .isVisibleCheck k])
    | .raises =>
        (none, elapsed + pg.kwCost k, ops ++ [.getByText k, .isVisibleCheck k])
    | .vis .raised =>
        (none, elapsed + pg.kwCost k,
         ops ++ [.getByText k, .isVisibleCheck k, .readText k])
    | .vis (.got txt) =>
        let raw := txt.getD ""
        let e2 := elapsed + pg.kwCost k
        (some { success := true, text := some (pyStrip raw),
                selector := some ("text containing \x27" ++ k ++ "\x27"),
                contains_expected := some (optCI expected raw),
                expected_text := some expected, error := none,
                wait_time_ms := e2 },
         e2, ops ++ [.getByText k, .isVisibleCheck k, .readText k])

/-- Body of `capture_toast_message` after `_check_page_alive`: try all
selectors, then the keyword fallback, else the failure dict whose only
payload is the error string (the Python dict has no `text`,
`contains_expected`, `selector` or `expected_text` keys on this path). -/
def capture_run (pg : BPage) (expected : Option String) :
    ToastDetails × List PageOp :=
  match selLoop pg expected toast_selectors 0 [] with
  | (some d, _, ops) => (d, ops)
  | (none, e1, ops1) =>
    match kwLoop pg expected success_texts e1 ops1 with
    | (some d, _, ops) => (d, ops)
    | (none, e2, ops2) =>
        ({ success := false, text := none, selector := none,
           contains_expected := none, expected_text := none,
           error := some "No toast message found within timeout",
           wait_time_ms := e2 }, ops2)

/-- `BasePage.capture_toast_message(expected_text, timeout)`.  The
`timeout` argument is received but, as in the source, only logged — the
body never consults it.  `_check_page_alive` raises when the page is
closed or unresponsive; every other path returns the structured dict. -/
def capture_toast_message (pg : BPage) (expected : Option String)
    (timeout : Nat) : Except String (ToastDetails × List PageOp) :=
  if pg.alive then .ok (capture_run pg expected)
  else .error "Page has been closed"

/-! ### Embedding of `ToastHandler.capture_toast` -/

/-- One record of the handler's `captured_toasts` list.  The Python dict
also stores an ISO timestamp and the screenshot bytes, both opaque
runtime values; only the `text` key participates in any claim. -/
structure ToastRec where
  text : String
  deriving DecidableEq

/-- Environment of one `ToastHandler.capture_toast` call: whether a
`[role='alert']` element gets attached within a given wait budget, and
the `text_content` outcome of each alert element found. -/
structure HPage where
  attachedWithin : Nat → Bool
  alerts : List TextRead

/-- The per-element text-collection loop of `capture_toast`: a raising
`text_content` is logged and skipped, a `None` or empty text is skipped
by `if text:`, otherwise the stripped text is appended (note the
truthiness test precedes the strip, so a whitespace-only text is kept
and stripped to the empty string). -/
def collectTexts : List TextRead → List String
  | [] => []
  | .raised :: rest => collectTexts rest
  | .got none :: rest => collectTexts rest
  | .got (some t) :: rest =>
      if t = "" then collectTexts rest else pyStrip t :: collectTexts rest

/-- `ToastHandler.capture_toast(expected_text, timeout_ms, must_contain)`
with the handler's `captured_toasts` list threaded as state.  Returns the
`(success, captured_text)` pair and the new list.  When any text was
collected, one record is appended before the expected-text validation;
the validation is a case-sensitive `in` (or `==` when `must_contain` is
false) and its result becomes `success`.  A `TimeoutError` from the
initial wait, zero elements, or no collected text all return
`(False, None)` with the state unchanged. -/
def capture_toast_h (pg : HPage) (expected : Option String)
    (timeout_ms : Nat) (must_contain : Bool) (st : List ToastRec) :
    (Bool × Option String) × List ToastRec :=
  if pg.attachedWithin timeout_ms then
    if pg.alerts.length = 0 then ((false, none), st)
    else
      let texts := collectTexts pg.alerts
      if texts = [] then ((false, none), st)
      else
        let full := joinSep " | " texts
        let st2 := st ++ [{ text := full }]
        match expected with
        | none => ((true, some full), st2)
        | some e =>
            if e = "" then ((true, some full), st2)
            else if must_contain then ((strIncl e full, some full), st2)
            else ((e == full, some full), st2)
  else ((false, none), st)

/-! ### Embedding of `capture_toast_once` (tms_full_flow.py) -/

/-- Outcome of one selector attempt in `capture_toast_once`:
`is_visible` returned false, or `is_visible`/`locator` raised (both paths
hit the per-selector `except: continue`), or the element is visible and
its text was read with outcome `txt`. -/
inductive TSel where
  | noVis
  | raisesV
  | vis (txt : TextRead)
  deriving DecidableEq

/-- Environment of one `capture_toast_once` call: the outcome of each
CSS-selector probe, each keyword probe, and the final
`get_by_role("alert")` probe. -/
structure TPage where
  sel : String → TSel
  kw : String → KwOutcome
  roleAlert : TSel

/-- The selector candidates of `capture_toast_once`. -/
def once_selectors : List String :=
  ["[role=\x27alert\x27]", ".MuiAlert-root", ".toast", ".notification",
   ".ant-message", ".ant-notification", ".success-message", ".alert-success"]

/-- The keyword list of `capture_toast_once`. -/
def once_keywords : List String :=
  ["success", "created", "added", "saved", "merchant"]

/-- Selector loop of `capture_toast_once`: a visible element whose text
is truthy and non-blank after stripping (`if toast_text and
toast_text.strip()`) is returned stripped; everything else continues. -/
def onceSelLoop (pg : TPage) : List String → List PageOp →
    Option String × List PageOp
  | [], ops => (none, ops)
  | s :: rest, ops =>
    match pg.sel s with
    | .noVis => onceSelLoop pg rest (ops ++ [.isVisibleCheck s])
    | .raisesV => onceSelLoop pg rest (ops ++ [.isVisibleCheck s])
    | .vis .raised => onceSelLoop pg rest (ops ++ [.isVisibleCheck s, .readText s])
    | .vis (.got none) => onceSelLoop pg rest (ops ++ [.isVisibleCheck s, .readText s])
    | .vis (.got (some t)) =>
        if pyStrip t = "" then
          onceSelLoop pg rest (ops ++ [.isVisibleCheck s, .readText s])
        else (some (pyStrip t), ops ++ [.isVisibleCheck s, .readText s])

/-- Keyword loop of `capture_toast_once`: same blank-skipping as the
selector loop, but the single surrounding `try` means any raising probe
abandons the remaining keywords. -/
def onceKwLoop (pg : TPage) : List String → List PageOp →
    Option String × List PageOp
  | [], ops => (none, ops)
  | k :: rest, ops =>
    match pg.kw k with
    | .notVis => onceKwLoop pg rest (ops ++ [.getByText k, .isVisibleCheck k])
    | .raises => (none, ops ++ [.getByText k, .isVisibleCheck k])
    | .vis .raised => (none, ops ++ [.getByText k, .isVisibleCheck k, .readText k])
    | .vis (.got none) =>
        onceKwLoop pg rest (ops ++ [.getByText k, .isVisibleCheck k, .readText k])
    | .vis (.got (some t)) =>
        if pyStrip t = "" then
          onceKwLoop pg rest (ops ++ [.getByText k, .isVisibleCheck k, .readText k])
        else (some (pyStrip t), ops ++ [.getByText k, .isVisibleCheck k, .readText k])

/-- Final fallback of `capture_toast_once`: `get_by_role("alert")`; when
it is visible the code double-clicks it ("Codegen does dblclick") before
reading its text. -/
def onceRoleAlert (pg : TPage) (ops : List PageOp) :
    Option String × List PageOp :=
  match pg.roleAlert with
  | .noVis => (none, ops ++ [.isVisibleCheck "role=alert"])
  | .raisesV => (none, ops ++ [.isVisibleCheck "role=alert"])
  | .vis .raised =>
      (none, ops ++ [.isVisibleCheck "role=alert", .dblclick "role=alert",
                     .readText "role=alert"])
  | .vis (.got none) =>
      (none, ops ++ [.isVisibleCheck "role=alert", .dblclick "role=alert",
                     .readText "role=alert"])
  | .vis (.got (some t)) =>
      (if pyStrip t = "" then none else some (pyStrip t),
       ops ++ [.isVisibleCheck "role=alert", .dblclick "role=alert",
               .readText "role=alert"])

/-- `capture_toast_once(timeout)` with the `last_toast_message` cache
threaded as state.  Returns `(captured_text, new_cache, ops)`.  A truthy
cached message short-circuits the whole search; the `timeout` argument
is, as in the source, never consulted (all probe slices are fixed). -/
def capture_toast_once (pg : TPage) (cache : Option String)
    (timeout : Nat) : Option String × Option String × List PageOp :=
  match cache with
  | some m =>
      if m = "" then capture_toast_once_body pg cache
      else (some m, some m, [])
  | none => capture_toast_once_body pg cache
where
  capture_toast_once_body (pg : TPage) (cache : Option String) :
      Option String × Option String × List PageOp :=
    match onceSelLoop pg once_selectors [] with
    | (some t, ops) => (some t, some t, ops)
    | (none, ops1) =>
      match onceKwLoop pg once_keywords ops1 with
      | (some t, ops) => (some t, some t, ops)
      | (none, ops2) =>
        match onceRoleAlert pg ops2 with
        | (some t, ops) => (some t, some t, ops)
        | (none, ops) => (none, cache, ops)

/-! ### Embedding of the `retry` decorator (utils/helpers.py) -/

/-- What the wrapper ends up raising: the last exception caught from the
wrapped function, or Python's `TypeError` from `raise None` when
`max_attempts` is 0 and the loop body never ran. -/
inductive RetryErr where
  | err (msg : String)
  | raiseNone
  deriving DecidableEq

/-- The attempt loop of `retry`: `attempt` is the 1-based attempt number,
`remaining` the number of further attempts allowed after this one.  On
failure with attempts left the wrapper sleeps `delay * attempt` (the
source comments this "Exponential backoff") and retries; on the final
failure it re-raises.  Returns the outcome and the list of sleeps. -/
def retry_aux (f : Nat → Except String α) (delay attempt : Nat) :
    Nat → Except RetryErr α × List Nat
  | 0 =>
    (match f attempt with
     | .ok a => .ok a
     | .error e => .error (.err e), [])
  | r + 1 =>
    match f attempt with
    | .ok a => (.ok a, [])
    | .error e =>
        let rec_result := retry_aux f delay (attempt + 1) r
        (rec_result.1, delay * attempt :: rec_result.2)

/-- `retry(max_attempts, delay)` applied to a function `f` whose
behaviour on the k-th invocation is `f k`.  Returns the wrapper's
outcome and the list of back-off sleeps performed. -/
def retry (maxAttempts delay : Nat) (f : Nat → Except String α) :
    Except RetryErr α × List Nat :=
  match maxAttempts with
  | 0 => (.error .raiseNone, [])
  | n + 1 => retry_aux f delay 1 n

/-! ### Heap model for `get_captured_toasts` (`.copy()` semantics) -/

/-- A store of Python list objects holding toast records; an address is
an index into the store. -/
structure Store where
  cells : List (List ToastRec)
  deriving DecidableEq

/-- Read the list object at an address. -/
def listAt (s : Store) (a : Nat) : List ToastRec := s.cells.getD a []

/-- Allocate a fresh list object (what `list.copy()` does). -/
def allocCell (s : Store) (v : List ToastRec) : Store × Nat :=
  (⟨s.cells ++ [v]⟩, s.cells.length)

/-- Mutate the list object at an address in place. -/
def writeCell (s : Store) (a : Nat) (v : List ToastRec) : Store :=
  ⟨s.cells.set a v⟩

/-- `ToastHandler.get_captured_toasts`: `return self.captured_toasts.copy()`
— allocates a fresh list with the same contents and returns its address. -/
def get_captured_toasts (s : Store) (toastsAddr : Nat) : Store × Nat :=
  allocCell s (listAt s toastsAddr)

/-! ### Shape lemmas for `capture_toast_message` -/

/-- Every success dict produced by the selector loop carries the raw
captured text both stripped (in `text`) and raw (inside the
`contains_expected` computation), `success := true`, and no `error`. -/
theorem selLoop_some_shape (pg : BPage) (e : Option String) :
    ∀ (ls : List String) (el : Nat) (ops : List PageOp) d e2 ops2,
      selLoop pg e ls el ops = (some d, e2, ops2) →
      ∃ raw s, d = { success := true, text := some (pyStrip raw),
                     selector := some s,
                     contains_expected := some (optCI e raw),
                     expected_text := some e, error := none,
                     wait_time_ms := e2 } := by
  intro ls
  induction ls with
  | nil => intro el ops d e2 ops2 h; simp [selLoop] at h
  | cons s rest ih =>
    intro el ops d e2 ops2 h
    cases hs : pg.sel s with
    | absent =>
        simp only [selLoop, hs] at h
        exact ih _ _ _ _ _ h
    | detached =>
        simp only [selLoop, hs] at h
        exact ih _ _ _ _ _ h
    | found txt =>
        simp only [selLoop, hs, Prod.mk.injEq, Option.some.injEq] at h
        obtain ⟨hd, he, _⟩ := h
        exact ⟨txt.getD "", s, by rw [← hd, he]⟩

/-- Same shape for the keyword fallback loop. -/
theorem kwLoop_some_shape (pg : BPage) (e : Option String) :
    ∀ (ls : List String) (el : Nat) (ops : List PageOp) d e2 ops2,
      kwLoop pg e ls el ops = (some d, e2, ops2) →
      ∃ raw s, d = { success := true, text := some (pyStrip raw),
                     selector := some s,
                     contains_expected := some (optCI e raw),
                     expected_text := some e, error := none,
                     wait_time_ms := e2 } := by
  intro ls
  induction ls with
  | nil => intro el ops d e2 ops2 h; simp [kwLoop] at h
  | cons k rest ih =>
    intro el ops d e2 ops2 h
    cases hk : pg.kw k with
    | notVis =>
        simp only [kwLoop, hk] at h
        exact ih _ _ _ _ _ h
    | raises => simp [kwLoop, hk] at h
    | vis t =>
        cases t with
        | raised => simp [kwLoop, hk] at h
        | got txt =>
            simp only [kwLoop, hk, Prod.mk.injEq, Option.some.injEq] at h
            obtain ⟨hd, he, _⟩ := h
            exact ⟨txt.getD "", _, by rw [← hd, he]⟩

/-- A successful `capture_run` result reports the stripped raw text and
the `contains_expected` verdict computed from the raw text. -/
theorem capture_run_ok_shape (pg : BPage) (e : Option String)
    (d : ToastDetails) (ops : List PageOp)
    (h : capture_run pg e = (d, ops)) (hs : d.success = true) :
    ∃ raw, d.text = some (pyStrip raw) ∧
      d.contains_expected = some (optCI e raw) := by
  unfold capture_run at h
  rcases hsel : selLoop pg e toast_selectors 0 [] with ⟨o, e1, ops1⟩
  rw [hsel] at h
  cases o with
  | some d0 =>
      simp only [Prod.mk.injEq] at h
      obtain ⟨rfl, -⟩ := h
      obtain ⟨raw, s, rfl⟩ := selLoop_some_shape pg e _ _ _ _ _ _ hsel
      exact ⟨raw, rfl, rfl⟩
  | none =>
      dsimp only at h
      rcases hkw : kwLoop pg e success_texts e1 ops1 with ⟨o2, e2, ops2⟩
      rw [hkw] at h
      cases o2 with
      | some d0 =>
          simp only [Prod.mk.injEq] at h
          obtain ⟨rfl, -⟩ := h
          obtain ⟨raw, s, rfl⟩ := kwLoop_some_shape pg e _ _ _ _ _ _ hkw
          exact ⟨raw, rfl, rfl⟩
      | none =>
          simp only [Prod.mk.injEq] at h
          obtain ⟨rfl, -⟩ := h
          simp at hs

/-- A failed `capture_run` result is exactly the failure dict: no `text`,
`selector`, `contains_expected` or `expected_text` keys, and the fixed
non-empty error string. -/
theorem capture_run_fail_shape (pg : BPage) (e : Option String)
    (d : ToastDetails) (ops : List PageOp)
    (h : capture_run pg e = (d, ops)) (hf : d.success = false) :
    d.text = none ∧ d.contains_expected = none ∧ d.selector = none ∧
      d.error = some "No toast message found within timeout" := by
  unfold capture_run at h
  rcases hsel : selLoop pg e toast_selectors 0 [] with ⟨o, e1, ops1⟩
  rw [hsel] at h
  cases o with
  | some d0 =>
      simp only [Prod.mk.injEq] at h
      obtain ⟨rfl, -⟩ := h
      obtain ⟨raw, s, rfl⟩ := selLoop_some_shape pg e _ _ _ _ _ _ hsel
      simp at hf
  | none =>
      dsimp only at h
      rcases hkw : kwLoop pg e success_texts e1 ops1 with ⟨o2, e2, ops2⟩
      rw [hkw] at h
      cases o2 with
      | some d0 =>
          simp only [Prod.mk.injEq] at h
          obtain ⟨rfl, -⟩ := h
          obtain ⟨raw, s, rfl⟩ := kwLoop_some_shape pg e _ _ _ _ _ _ hkw
          simp at hf
      | none =>
          simp only [Prod.mk.injEq] at h
          obtain ⟨rfl, -⟩ := h
          exact ⟨rfl, rfl, rfl, rfl⟩

/-- The selector loop's decision to stop, its elapsed time and its
operation trace do not depend on `expected_text` (only the dict's
`contains_expected`/`expected_text` payload does). -/
theorem selLoop_indep (pg : BPage) (e e2 : Option String) :
    ∀ (ls : List String) (el : Nat) (ops : List PageOp),
      ((selLoop pg e ls el ops).1 = none ↔ (selLoop pg e2 ls el ops).1 = none) ∧
      (selLoop pg e ls el ops).2 = (selLoop pg e2 ls el ops).2 := by
  intro ls
  induction ls with
  | nil => intro el ops; simp [selLoop]
  | cons s rest ih =>
    intro el ops
    cases hs : pg.sel s <;> simp only [selLoop, hs] <;> first
      | exact ih _ _
      | simp

/-- The keyword loop is likewise independent of `expected_text`. -/
theorem kwLoop_indep (pg : BPage) (e e2 : Option String) :
    ∀ (ls : List String) (el : Nat) (ops : List PageOp),
      ((kwLoop pg e ls el ops).1 = none ↔ (kwLoop pg e2 ls el ops).1 = none) ∧
      (kwLoop pg e ls el ops).2 = (kwLoop pg e2 ls el ops).2 := by
  intro ls
  induction ls with
  | nil => intro el ops; simp [kwLoop]
  | cons k rest ih =>
    intro el ops
    cases hk : pg.kw k with
    | notVis => simp only [kwLoop, hk]; exact ih _ _
    | raises => simp [kwLoop, hk]
    | vis t => cases t with
      | raised => simp [kwLoop, hk]
      | got txt => simp [kwLoop, hk]

/-- `success` of `capture_toast_message` does not depend on
`expected_text`: a mismatch can only surface in `contains_expected`. -/
theorem capture_run_success_indep (pg : BPage) (e e2 : Option String) :
    ((capture_run pg e).1).success = ((capture_run pg e2).1).success := by
  unfold capture_run
  obtain ⟨hiff, hsnd⟩ := selLoop_indep pg e e2 toast_selectors 0 []
  rcases hA : selLoop pg e toast_selectors 0 [] with ⟨o, eA, opsA⟩
  rcases hB : selLoop pg e2 toast_selectors 0 [] with ⟨o2, eB, opsB⟩
  rw [hA, hB] at hiff hsnd
  simp only at hiff hsnd
  obtain ⟨rfl, rfl⟩ : eA = eB ∧ opsA = opsB := by
    simpa [Prod.ext_iff] using hsnd
  cases o with
  | some d =>
      have ho2 : ∃ d2, o2 = some d2 := by
        cases o2 with
        | none => simp at hiff
        | some d2 => exact ⟨d2, rfl⟩
      obtain ⟨d2, rfl⟩ := ho2
      obtain ⟨raw, s, rfl⟩ := selLoop_some_shape pg e _ _ _ _ _ _ hA
      obtain ⟨raw2, s2, rfl⟩ := selLoop_some_shape pg e2 _ _ _ _ _ _ hB
      rfl
  | none =>
      have : o2 = none := by simpa using hiff
      subst this
      dsimp only
      obtain ⟨kiff, ksnd⟩ := kwLoop_indep pg e e2 success_texts eA opsA
      rcases hK : kwLoop pg e success_texts eA opsA with ⟨p, eK, opsK⟩
      rcases hL : kwLoop pg e2 success_texts eA opsA with ⟨p2, eL, opsL⟩
      rw [hK, hL] at kiff ksnd
      cases p with
      | some d =>
          have hp2 : ∃ d2, p2 = some d2 := by
            cases p2 with
            | none => simp at kiff
            | some d2 => exact ⟨d2, rfl⟩
          obtain ⟨d2, rfl⟩ := hp2
          obtain ⟨raw, s, rfl⟩ := kwLoop_some_shape pg e _ _ _ _ _ _ hK
          obtain ⟨raw2, s2, rfl⟩ := kwLoop_some_shape pg e2 _ _ _ _ _ _ hL
          rfl
      | none =>
          have : p2 = none := by simpa using kiff
          subst this
          rfl

/-- The selector loop only adds read operations to the trace. -/
theorem selLoop_ops_readonly (pg : BPage) (e : Option String) :
    ∀ (ls : List String) (el : Nat) (ops0 : List PageOp),
      (∀ op ∈ ops0, readOnlyOp op = true) →
      ∀ op ∈ (selLoop pg e ls el ops0).2.2, readOnlyOp op = true := by
  intro ls
  induction ls with
  | nil => intro el ops0 h0; simpa [selLoop] using h0
  | cons s rest ih =>
    intro el ops0 h0 op hop
    cases hs : pg.sel s <;> simp only [selLoop, hs] at hop
    case absent =>
      refine ih _ _ ?_ _ hop
      intro q hq
      rcases List.mem_append.mp hq with hq | hq
      · exact h0 _ hq
      · simp only [List.mem_singleton] at hq; subst hq; rfl
    case detached =>
      refine ih _ _ ?_ _ hop
      intro q hq
      rcases List.mem_append.mp hq with hq | hq
      · exact h0 _ hq
      · rcases List.mem_cons.mp hq with rfl | hq
        · rfl
        · simp only [List.mem_singleton] at hq; subst hq; rfl
    case found txt =>
      rcases List.mem_append.mp hop with hq | hq
      · exact h0 _ hq
      · rcases List.mem_cons.mp hq with rfl | hq
        · rfl
        · rcases List.mem_cons.mp hq with rfl | hq
          · rfl
          · simp only [List.mem_singleton] at hq; subst hq; rfl

/-- The keyword loop only adds read operations to the trace. -/
theorem kwLoop_ops_readonly (pg : BPage) (e : Option String) :
    ∀ (ls : List String) (el : Nat) (ops0 : List PageOp),
      (∀ op ∈ ops0, readOnlyOp op = true) →
      ∀ op ∈ (kwLoop pg e ls el ops0).2.2, readOnlyOp op = true := by
  intro ls
  induction ls with
  | nil => intro el ops0 h0; simpa [kwLoop] using h0
  | cons k rest ih =>
    intro el ops0 h0 op hop
    have hstep : ∀ (extra : List PageOp), (∀ q ∈ extra, readOnlyOp q = true) →
        op ∈ ops0 ++ extra → readOnlyOp op = true := by
      intro extra hex hmem
      rcases List.mem_append.mp hmem with hq | hq
      · exact h0 _ hq
      · exact hex _ hq
    cases hk : pg.kw k with
    | notVis =>
        simp only [kwLoop, hk] at hop
        refine ih _ _ ?_ _ hop
        intro q hq
        rcases List.mem_append.mp hq with hq | hq
        · exact h0 _ hq
        · rcases List.mem_cons.mp hq with rfl | hq
          · rfl
          · simp only [List.mem_singleton] at hq; subst hq; rfl
    | raises =>
        simp only [kwLoop, hk] at hop
        refine hstep _ ?_ hop
        intro q hq
        rcases List.mem_cons.mp hq with rfl | hq
        · rfl
        · simp only [List.mem_singleton] at hq; subst hq; rfl
    | vis t =>
        cases t with
        | raised =>
            simp only [kwLoop, hk] at hop
            refine hstep _ ?_ hop
            intro q hq
            rcases List.mem_cons.mp hq with rfl | hq
            · rfl
            · rcases List.mem_cons.mp hq with rfl | hq
              · rfl
              · simp only [List.mem_singleton] at hq; subst hq; rfl
        | got txt =>
            simp only [kwLoop, hk] at hop
            refine hstep _ ?_ hop
            intro q hq
            rcases List.mem_cons.mp hq with rfl | hq
            · rfl
            · rcases List.mem_cons.mp hq with rfl | hq
              · rfl
              · simp only [List.mem_singleton] at hq; subst hq; rfl

/-- Every operation `capture_toast_message` performs on the page is a
read operation. -/
theorem capture_run_ops_readonly (pg : BPage) (e : Option String) :
    ∀ op ∈ (capture_run pg e).2, readOnlyOp op = true := by
  intro op hop
  unfold capture_run at hop
  rcases hsel : selLoop pg e toast_selectors 0 [] with ⟨o, e1, ops1⟩
  rw [hsel] at hop
  have hsel2 : (selLoop pg e toast_selectors 0 []).2.2 = ops1 := by
    rw [hsel]
  cases o with
  | some d =>
      simp only at hop
      refine selLoop_ops_readonly pg e toast_selectors 0 [] (by simp) op ?_
      rw [hsel2]; exact hop
  | none =>
      dsimp only at hop
      have h1 : ∀ q ∈ ops1, readOnlyOp q = true := by
        intro q hq
        refine selLoop_ops_readonly pg e toast_selectors 0 [] (by simp) q ?_
        rw [hsel2]; exact hq
      rcases hkw : kwLoop pg e success_texts e1 ops1 with ⟨o2, e2, ops2⟩
      rw [hkw] at hop
      have hkw2 : (kwLoop pg e success_texts e1 ops1).2.2 = ops2 := by
        rw [hkw]
      cases o2 with
      | some d =>
          simp only at hop
          refine kwLoop_ops_readonly pg e success_texts e1 ops1 h1 op ?_
          rw [hkw2]; exact hop
      | none =>
          simp only at hop
          refine kwLoop_ops_readonly pg e success_texts e1 ops1 h1 op ?_
          rw [hkw2]; exact hop

/-! ### Concrete call environments used in the claim theorems -/

/-- A page whose first toast selector matches an element with raw text
carrying a trailing space. -/
def pgC1x : BPage :=
  ⟨true,
   fun s => if s = ".Toastify__toast" then .found (some "Device added ") else .absent,
   fun _ => 300, fun _ => .notVis, fun _ => 0⟩

/-- A page whose first toast selector matches a normal success toast. -/
def pgC1w : BPage :=
  ⟨true,
   fun s => if s = ".Toastify__toast" then .found (some "Device Added Successfully") else .absent,
   fun _ => 300, fun _ => .notVis, fun _ => 0⟩

/-- A page with no alert-like element and no keyword match at all; every
selector wait runs its full 2000 ms slice. -/
def emptyBPage : BPage :=
  ⟨true, fun _ => .absent, fun _ => 0, fun _ => .notVis, fun _ => 0⟩

/-- A page whose first toast selector matches an element whose
`text_content` is the empty string. -/
def pgC5x : BPage :=
  ⟨true,
   fun s => if s = ".Toastify__toast" then .found (some "") else .absent,
   fun _ => 300, fun _ => .notVis, fun _ => 0⟩

/-- A TMS page carrying one alert whose text is the duplicate-merchant
message. -/
def hpMerchant : HPage :=
  ⟨fun _ => true, [.got (some "Merchant already exists")]⟩

/-- A TMS page carrying one alert whose text matches the expectation. -/
def hpMatch : HPage :=
  ⟨fun _ => true, [.got (some "Merchant created successfully")]⟩

/-- A TMS page where the toast has already disappeared: the alert wait
times out for every budget. -/
def goneHPage : HPage := ⟨fun _ => false, []⟩

/-- A TMS page for `capture_toast_once` where the `[role='alert']`
selector sees a visible element with blank text, no keyword matches, and
the final `get_by_role("alert")` fallback sees the element with text —
so the code reaches its double-click branch. -/
def pgDbl : TPage :=
  ⟨fun s => if s = "[role=\x27alert\x27]" then .vis (.got (some "")) else .noVis,
   fun _ => .notVis,
   .vis (.got (some "Saved"))⟩

/-- A wrapped function that raises on every invocation. -/
def alwaysFailU : Nat → Except String Unit := fun _ => .error "boom"

/-- A wrapped function that raises on the first two invocations and
succeeds on the third. -/
def failTwice : Nat → Except String Nat :=
  fun k => if 3 ≤ k then .ok 7 else .error "flaky"

/-- A TMS page carrying one alert for the C10 witness. -/
def hpSaved : HPage := ⟨fun _ => true, [.got (some "Transaction saved")]⟩

/-- A store holding one list object (the handler's `captured_toasts`). -/
def store0 : Store := ⟨[[{ text := "old toast" }]]⟩

/-- Whether a call returned a structured result rather than raising. -/
def isOkE (r : Except String (ToastDetails × List PageOp)) : Bool :=
  match r with
  | .ok _ => true
  | .error _ => false

/-! ### Claim theorems -/

/-- C1 (counterexample): with `expectedText = "added "` and a toast whose
raw text is `"Device added "`, the capture succeeds, the reported
(trimmed) text is `"Device added"`, and `containsExpected` is true even
though `"added "` is not a case-insensitive substring of the reported
text — so `containsExpected` is not the substring check against the
result's `text`. -/
theorem c1_counterexample :
    ((capture_run pgC1x (some "added ")).1).success = true ∧
    ((capture_run pgC1x (some "added ")).1).contains_expected = some true ∧
    ((capture_run pgC1x (some "added ")).1).text = some "Device added" ∧
    ciIncl "added " "Device added" = false := by decide

/-- C1 (amended): whenever `capture_toast_message` succeeds, there is a
raw captured text whose stripped form is the reported `text`, and
`containsExpected` is exactly the case-insensitive substring check of
`expectedText` against that raw (untrimmed) text — and `true` whenever
`expectedText` is absent. -/
theorem c1_contains_expected_uses_raw_text (pg : BPage) (e : Option String)
    (d : ToastDetails) (ops : List PageOp)
    (h : capture_run pg e = (d, ops)) (hs : d.success = true) :
    ∃ raw, d.text = some (pyStrip raw) ∧
      d.contains_expected = some (optCI e raw) :=
  capture_run_ok_shape pg e d ops h hs

/-- C1 (witness): the amended theorem applied to a concrete successful
capture. -/
theorem c1_witness :
    capture_run pgC1w (some "device added")
        = ((capture_run pgC1w (some "device added")).1,
           (capture_run pgC1w (some "device added")).2) ∧
    ((capture_run pgC1w (some "device added")).1).success = true ∧
    ∃ raw, ((capture_run pgC1w (some "device added")).1).text = some (pyStrip raw) ∧
      ((capture_run pgC1w (some "device added")).1).contains_expected
        = some (optCI (some "device added") raw) :=
  ⟨rfl, by decide,
   c1_contains_expected_uses_raw_text pgC1w (some "device added") _ _ rfl (by decide)⟩

/-- C2 (counterexample): `ToastHandler.capture_toast` on a page showing
"Merchant already exists" with `expected_text = "created successfully"`
returns `success = False` even though text was captured — the mismatch is
an engine-level failure there, contrary to the claim. -/
theorem c2_counterexample :
    (capture_toast_h hpMerchant (some "created successfully") 5000 true []).1
      = (false, some "Merchant already exists") := by decide

/-- C2 (amended): `capture_toast_message`'s `success` is independent of
`expectedText` (a mismatch surfaces only in `containsExpected`), but
`ToastHandler.capture_toast` folds the expectation into `success`:
whenever it returns a captured text with a non-empty `expected_text` and
`must_contain`, its `success` equals the case-sensitive containment
check. -/
theorem c2_mismatch_reporting :
    (∀ (pg : BPage) (e e2 : Option String),
        ((capture_run pg e).1).success = ((capture_run pg e2).1).success) ∧
    (∀ (hp : HPage) (st : List ToastRec) (tm : Nat) (e t : String),
        e ≠ "" → (capture_toast_h hp (some e) tm true st).1.2 = some t →
        (capture_toast_h hp (some e) tm true st).1.1 = strIncl e t) := by
  refine ⟨capture_run_success_indep, ?_⟩
  intro hp st tm e t he h
  unfold capture_toast_h at h ⊢
  by_cases h1 : hp.attachedWithin tm
  · simp only [h1, if_true] at h ⊢
    by_cases h2 : hp.alerts.length = 0
    · rw [if_pos h2] at h; simp at h
    · rw [if_neg h2] at h ⊢
      by_cases h3 : collectTexts hp.alerts = []
      · simp only [if_pos h3] at h; simp at h
      · simp only [if_neg h3, if_neg he] at h ⊢
        simp only [Option.some.injEq] at h
        rw [h]
  · simp only [h1, if_false] at h; simp at h

/-- C2 (witness): the amended theorem applied to a concrete matching
capture. -/
theorem c2_witness :
    ("created successfully" ≠ "" ∧
     (capture_toast_h hpMatch (some "created successfully") 5000 true []).1.2
        = some "Merchant created successfully") ∧
    (capture_toast_h hpMatch (some "created successfully") 5000 true []).1.1
      = strIncl "created successfully" "Merchant created successfully" :=
  ⟨⟨by decide, by decide⟩,
   c2_mismatch_reporting.2 hpMatch [] 5000 "created successfully"
     "Merchant created successfully" (by decide) (by decide)⟩

/-- C3 (counterexample): on a page with no toast and no keyword match,
the failure dict of `capture_toast_message` has no `text` key at all
(modelled as `none`), rather than `text = ""` as the claim states. -/
theorem c3_counterexample :
    ((capture_run emptyBPage (some "created")).1).success = false ∧
    ((capture_run emptyBPage (some "created")).1).text = none ∧
    ((capture_run emptyBPage (some "created")).1).text ≠ some "" := by decide

/-- C3 (amended): every failed `capture_toast_message` result has
`success = false`, a non-empty error message, and omits the `text` and
`contains_expected` keys entirely (rather than carrying `""`/`false`). -/
theorem c3_failure_result_shape (pg : BPage) (e : Option String)
    (d : ToastDetails) (ops : List PageOp)
    (h : capture_run pg e = (d, ops)) (hf : d.success = false) :
    d.text = none ∧ d.contains_expected = none ∧
      ∃ m, d.error = some m ∧ m ≠ "" := by
  obtain ⟨ht, hc, -, he⟩ := capture_run_fail_shape pg e d ops h hf
  exact ⟨ht, hc, "No toast message found within timeout", he, by decide⟩

/-- C3 (witness): the amended theorem applied to the empty page. -/
theorem c3_witness :
    (capture_run emptyBPage (some "created")
        = ((capture_run emptyBPage (some "created")).1,
           (capture_run emptyBPage (some "created")).2) ∧
     ((capture_run emptyBPage (some "created")).1).success = false) ∧
    (((capture_run emptyBPage (some "created")).1).text = none ∧
     ((capture_run emptyBPage (some "created")).1).contains_expected = none ∧
     ∃ m, ((capture_run emptyBPage (some "created")).1).error = some m ∧ m ≠ "") :=
  ⟨⟨rfl, by decide⟩,
   c3_failure_result_shape emptyBPage (some "created") _ _ rfl (by decide)⟩

/-- C4: `capture_toast_message` returns a structured result exactly when
the page is alive; the only exception that escapes is the page-closed
check, every in-body failure mode being folded into the returned dict. -/
theorem c4_no_raise_when_alive :
    ∀ (pg : BPage) (e : Option String) (t : Nat),
      isOkE (capture_toast_message pg e t) = pg.alive := by
  intro pg e t
  by_cases h : pg.alive
  · simp [capture_toast_message, h, isOkE]
  · simp [capture_toast_message, h, isOkE]

/-- C5 (counterexample): a located toast whose `text_content` is empty
still yields `success = true` (with `text = ""`) from
`capture_toast_message` — contrary to the claim that success requires a
non-empty captured text. -/
theorem c5_counterexample :
    ((capture_run pgC5x (some "device added")).1).success = true ∧
    ((capture_run pgC5x (some "device added")).1).text = some "" := by decide

/-- C5 (amended): `success = true` means a toast (or keyword element)
was located and its text field is present in the result — but the text
may be empty: `capture_toast_message` gives no non-emptiness guarantee,
while `ToastHandler.capture_toast` at least always returns a captured
text value alongside `success = true`. -/
theorem c5_success_means_text_present :
    (∀ (pg : BPage) (e : Option String),
        (((capture_run pg e).1).success = true ↔
          ((capture_run pg e).1).text ≠ none)) ∧
    (∀ (hp : HPage) (e : Option String) (tm : Nat) (mc : Bool)
        (st : List ToastRec),
        (capture_toast_h hp e tm mc st).1.1 = true →
        (capture_toast_h hp e tm mc st).1.2 ≠ none) := by
  constructor
  · intro pg e
    rcases hcr : capture_run pg e with ⟨d, ops⟩
    simp only
    cases hd : d.success
    · obtain ⟨ht, -, -, -⟩ := capture_run_fail_shape pg e d ops hcr hd
      simp [ht]
    · obtain ⟨raw, ht, -⟩ := capture_run_ok_shape pg e d ops hcr hd
      simp [ht]
  · intro hp e tm mc st h
    unfold capture_toast_h at h ⊢
    by_cases h1 : hp.attachedWithin tm
    · simp only [h1, if_true] at h ⊢
      by_cases h2 : hp.alerts.length = 0
      · rw [if_pos h2] at h; simp at h
      · rw [if_neg h2] at h ⊢
        by_cases h3 : collectTexts hp.alerts = []
        · simp only [if_pos h3] at h; simp at h
        · simp only [if_neg h3] at h ⊢
          cases e with
          | none => simp
          | some ex =>
              by_cases he : ex = ""
              · simp [he]
              · simp only [if_neg he] at h ⊢
                cases mc <;> simp
    · simp only [h1, if_false] at h; simp at h

/-- C5 (witness): the amended handler clause applied to a concrete
successful capture. -/
theorem c5_witness :
    (capture_toast_h hpSaved none 5000 true []).1.1 = true ∧
    (capture_toast_h hpSaved none 5000 true []).1.2 ≠ none :=
  ⟨by decide, c5_success_means_text_present.2 hpSaved none 5000 true [] (by decide)⟩

/-- C6: the `timeout` argument of `capture_toast_message` is never
consulted — the result is literally the same function of the page for
every timeout — and on a page with no alert-like element the call burns
the full 2000 ms slice on each of the 11 selector candidates, returning
failure only after 22000 ms, far beyond the requested 3000 ms. -/
theorem c6_timeout_ignored :
    (∀ (pg : BPage) (e : Option String) (t1 t2 : Nat),
        capture_toast_message pg e t1 = capture_toast_message pg e t2) ∧
    ((capture_run emptyBPage (some "device added")).1).success = false ∧
    ((capture_run emptyBPage (some "device added")).1).wait_time_ms = 22000 ∧
    3000 < ((capture_run emptyBPage (some "device added")).1).wait_time_ms := by
  refine ⟨fun pg e t1 t2 => rfl, by decide, by decide, by decide⟩

/-- C7: calling `ToastHandler.capture_toast` against a page whose toast
has already disappeared returns `(False, None)` and leaves the handler
state unchanged, whatever was captured before — no stale text from a
first call leaks into a later independent request. -/
theorem c7_no_stale_leak :
    ∀ (st : List ToastRec) (e : Option String) (tm : Nat) (mc : Bool),
      capture_toast_h goneHPage e tm mc st = ((false, none), st) := by
  intro st e tm mc; rfl

/-- C8 (counterexample): `capture_toast_once` double-clicks the alert
element in its final `get_by_role("alert")` fallback — a page mutation,
contrary to the claim that no toast-capture operation clicks any
element. -/
theorem c8_counterexample :
    PageOp.dblclick "role=alert" ∈ (capture_toast_once pgDbl none 10000).2.2 := by
  decide

/-- C8 (amended): `capture_toast_message` performs only read operations
on the page, but `capture_toast_once` is not read-only: its role-alert
fallback double-clicks the alert before reading its text. -/
theorem c8_read_only_except_once_dblclick :
    (∀ (pg : BPage) (e : Option String),
        ∀ op ∈ (capture_run pg e).2, readOnlyOp op = true) ∧
    PageOp.dblclick "role=alert" ∈ (capture_toast_once pgDbl none 10000).2.2 :=
  ⟨capture_run_ops_readonly, by decide⟩

/-- C8 (witness): the read-only clause applied to a concrete operation
of a concrete run. -/
theorem c8_witness :
    PageOp.waitSel ".Toastify__toast" ∈ (capture_run emptyBPage none).2 ∧
    readOnlyOp (PageOp.waitSel ".Toastify__toast") = true :=
  ⟨by decide,
   c8_read_only_except_once_dblclick.1 emptyBPage none
     (PageOp.waitSel ".Toastify__toast") (by decide)⟩

/-- C9: the retry wrapper's sleeps grow linearly (`delay * attempt`, an
arithmetic progression), not exponentially: with `max_attempts = 4`,
`delay = 2` and an always-failing function the sleeps are 2, 4, 6 —
constant difference, non-constant ratio — and the last exception is
re-raised; a function that succeeds on its third invocation returns that
result after exactly two sleeps. -/
theorem c9_backoff_is_linear :
    (retry 4 2 alwaysFailU).1 = Except.error (RetryErr.err "boom") ∧
    (retry 4 2 alwaysFailU).2 = [2, 4, 6] ∧
    (retry 4 2 alwaysFailU).2.getD 2 0 - (retry 4 2 alwaysFailU).2.getD 1 0
      = (retry 4 2 alwaysFailU).2.getD 1 0 - (retry 4 2 alwaysFailU).2.getD 0 0 ∧
    (retry 4 2 alwaysFailU).2.getD 1 0 * (retry 4 2 alwaysFailU).2.getD 1 0
      ≠ (retry 4 2 alwaysFailU).2.getD 0 0 * (retry 4 2 alwaysFailU).2.getD 2 0 ∧
    retry 5 2 failTwice = (Except.ok 7, [2, 4]) := by
  exact ⟨rfl, rfl, by decide, by decide, rfl⟩

/-- C10: `ToastHandler.capture_toast` appends exactly one record when it
returns a captured text and leaves `captured_toasts` unchanged on every
path returning no text; and `get_captured_toasts` hands out a fresh copy,
so writing through the returned list object never changes the list the
handler holds. -/
theorem c10_state_and_copy :
    (∀ (hp : HPage) (e : Option String) (tm : Nat) (mc : Bool)
        (st : List ToastRec),
        (capture_toast_h hp e tm mc st).1.2 = none →
        (capture_toast_h hp e tm mc st).2 = st) ∧
    (∀ (hp : HPage) (e : Option String) (tm : Nat) (mc : Bool)
        (st : List ToastRec) (t : String),
        (capture_toast_h hp e tm mc st).1.2 = some t →
        (capture_toast_h hp e tm mc st).2 = st ++ [{ text := t }]) ∧
    (∀ (s : Store) (a : Nat) (v : List ToastRec), a < s.cells.length →
        listAt (writeCell (get_captured_toasts s a).1
          (get_captured_toasts s a).2 v) a = listAt s a) := by
  refine ⟨?_, ?_, ?_⟩
  · intro hp e tm mc st h
    unfold capture_toast_h at h ⊢
    by_cases h1 : hp.attachedWithin tm
    · simp only [h1, if_true] at h ⊢
      by_cases h2 : hp.alerts.length = 0
      · rw [if_pos h2]
      · rw [if_neg h2] at h ⊢
        by_cases h3 : collectTexts hp.alerts = []
        · rw [if_pos h3]
        · simp only [if_neg h3] at h ⊢
          cases e with
          | none => simp at h
          | some ex =>
              dsimp only at h ⊢
              by_cases he : ex = ""
              · rw [if_pos he] at h; simp at h
              · simp only [if_neg he] at h
                cases mc <;> simp at h
    · simp [h1]
  · intro hp e tm mc st t h
    unfold capture_toast_h at h ⊢
    by_cases h1 : hp.attachedWithin tm
    · simp only [h1, if_true] at h ⊢
      by_cases h2 : hp.alerts.length = 0
      · rw [if_pos h2] at h; simp at h
      · rw [if_neg h2] at h ⊢
        by_cases h3 : collectTexts hp.alerts = []
        · simp only [if_pos h3] at h; simp at h
        · simp only [if_neg h3] at h ⊢
          cases e with
          | none =>
              dsimp only at h ⊢
              simp only [Option.some.injEq] at h
              simp [h]
          | some ex =>
              dsimp only at h ⊢
              by_cases he : ex = ""
              · rw [if_pos he] at h ⊢
                simp only [Option.some.injEq] at h
                rw [← h]
              · simp only [if_neg he] at h ⊢
                cases mc <;> simp_all
    · simp only [h1, if_false] at h; simp at h
  · intro s a v ha
    have hne : s.cells.length ≠ a := Nat.ne_of_gt ha
    simp only [get_captured_toasts, allocCell, listAt, writeCell,
      List.getD_eq_getElem?_getD]
    rw [List.getElem?_set_ne hne, List.getElem?_append_left ha]

/-- C10 (witness): both state clauses and the copy clause applied to
concrete inputs. -/
theorem c10_witness :
    ((capture_toast_h hpSaved none 5000 true []).1.2 = some "Transaction saved" ∧
     (capture_toast_h hpSaved none 5000 true []).2 = [{ text := "Transaction saved" }]) ∧
    (0 < store0.cells.length ∧
     listAt (writeCell (get_captured_toasts store0 0).1
       (get_captured_toasts store0 0).2 []) 0 = listAt store0 0) :=
  ⟨⟨by decide,
    c10_state_and_copy.2.1 hpSaved none 5000 true [] "Transaction saved" (by decide)⟩,
   ⟨by decide, c10_state_and_copy.2.2 store0 0 [] (by decide)⟩⟩
